import Mathlib

/-!
Verification of the text-overlay layout engine of the listicle generator
(`stable-diffusion/scripts/generate_listicle.py`) and its caller
(`generate_listicle_images`, plus the API validation in `api/main.py`).

Python strings are modelled as `List Char`; `str.split(sep)` (with an
explicit one-character separator, which keeps empty pieces) is modelled by
`splitOnChar`.  PIL's text measurement (`draw.textbbox(...)[2] - bbox[0]`)
is abstracted as a per-font function `Str → Nat`, since the pixel metrics
of a font are external to the repository.  All definitions are translated
from the source; nothing is simplified away from the control flow.
-/

namespace Listicle

/-- A Python string, modelled as its list of characters. -/
abbrev Str := List Char

/-- Python `s.split(c)` for a one-character separator `c`: splits at every
occurrence of `c`, keeping empty pieces, and returns `[""]` on `""`. -/
def splitOnChar (sep : Char) : Str → List Str
  | [] => [[]]
  | c :: rest =>
    match splitOnChar sep rest with
    | [] => [[c]]
    | w :: ws => if c = sep then [] :: w :: ws else (c :: w) :: ws

/-- The (possibly empty) space-separated pieces of a string,
Python `text.split(' ')`. -/
def splitOnSpace (s : Str) : List Str := splitOnChar ' ' s

/-- The non-empty words of a string: its space-separated pieces with the
empty pieces (from leading/trailing/double spaces) removed. -/
def wordsOf (s : Str) : List Str := (splitOnSpace s).filter (· ≠ [])

/-- Python `sep.join(lines)` for a one-character separator. -/
def joinWith (sep : Char) : List Str → Str
  | [] => []
  | [l] => l
  | l :: l' :: ls => l ++ sep :: joinWith sep (l' :: ls)

/-- `test_line = current_line + (" " if current_line else "") + word`
from `wrap_text` (generate_listicle.py:426). -/
def testLine (current word : Str) : Str :=
  current ++ (if current = [] then [] else [' ']) ++ word

/-- State of the `wrap_text` loop: the closed lines and the line being built. -/
structure WrapState where
  lines : List Str
  current : Str

/-- One iteration of the `for word in words` loop of `wrap_text`
(generate_listicle.py:425-438).  `width` abstracts
`draw.textbbox((0,0), ·, font)[2] - bbox[0]` for the given font; the
budget `maxWidth` is an `Int` because the Python caller computes it as
`width - text_margin * 2`, which is not a priori non-negative. -/
def wrapStep (width : Str → Nat) (maxWidth : Int) (st : WrapState) (word : Str) :
    WrapState :=
  let t := testLine st.current word
  if (width t : Int) ≤ maxWidth then
    { st with current := t }
  else if st.current ≠ [] then
    { lines := st.lines ++ [st.current], current := word }
  else
    { st with lines := st.lines ++ [word] }

/-- The list of lines built by `wrap_text` (generate_listicle.py:419-441),
before they are joined with newlines: fold the loop body over
`text.split(' ')` and flush the final `current_line` when it is non-empty
(Python truthiness of the empty string). -/
def wrapLines (width : Str → Nat) (maxWidth : Int) (text : Str) : List Str :=
  let st := (splitOnSpace text).foldl (wrapStep width maxWidth) ⟨[], []⟩
  if st.current ≠ [] then st.lines ++ [st.current] else st.lines

/-- `wrap_text(text, font, max_width, draw)` (generate_listicle.py:419-443):
returns `'\n'.join(lines)`. -/
def wrap_text (width : Str → Nat) (maxWidth : Int) (text : Str) : Str :=
  joinWith '\n' (wrapLines width maxWidth text)

/-! ### Basic facts about splitting -/

theorem splitOnChar_ne_nil (sep : Char) (s : Str) : splitOnChar sep s ≠ [] := by
  induction s with
  | nil => simp [splitOnChar]
  | cons c rest ih =>
    simp only [splitOnChar]
    cases h : splitOnChar sep rest with
    | nil => simp
    | cons w ws =>
      by_cases hc : c = sep <;> simp [hc]

theorem splitOnChar_append (sep : Char) (a b : Str) :
    splitOnChar sep (a ++ sep :: b) = splitOnChar sep a ++ splitOnChar sep b := by
  induction a with
  | nil =>
    simp [splitOnChar]
    cases h : splitOnChar sep b with
    | nil => exact absurd h (splitOnChar_ne_nil sep b)
    | cons w ws => simp
  | cons c a ih =>
    cases ha : splitOnChar sep a with
    | nil => exact absurd ha (splitOnChar_ne_nil sep a)
    | cons w ws =>
      simp only [List.cons_append, splitOnChar, List.append_eq]
      rw [ih, ha]
      by_cases hc : c = sep <;> simp [hc]

theorem mem_splitOnChar_not_mem (sep : Char) (s : Str) :
    ∀ w ∈ splitOnChar sep s, sep ∉ w := by
  induction s with
  | nil => simp [splitOnChar]
  | cons c rest ih =>
    simp only [splitOnChar]
    cases h : splitOnChar sep rest with
    | nil => exact absurd h (splitOnChar_ne_nil sep rest)
    | cons w ws =>
      intro v hv
      have hw := ih
      rw [h] at hw
      by_cases hc : c = sep <;> simp [hc] at hv
      · rcases hv with hv | hv | hv
        · simp [hv]
        · exact hw v (hv ▸ List.mem_cons_self w ws)
        · exact hw v (List.mem_cons_of_mem w hv)
      · rcases hv with hv | hv
        · subst hv
          intro hmem
          rcases List.mem_cons.mp hmem with h1 | h1
          · exact hc h1.symm
          · exact hw w (List.mem_cons_self w ws) h1
        · exact hw v (List.mem_cons_of_mem w hv)

theorem splitOnChar_of_not_mem (sep : Char) (w : Str) (h : sep ∉ w) :
    splitOnChar sep w = [w] := by
  induction w with
  | nil => simp [splitOnChar]
  | cons c rest ih =>
    simp only [List.mem_cons, not_or] at h
    have hcs : ¬ c = sep := fun hc => h.1 hc.symm
    simp only [splitOnChar, ih h.2]
    simp [hcs]

/-! ### Word preservation through the wrap loop (claim C1) -/

/-- All the non-empty words of a list of lines, in line order. -/
def linesWords (ls : List Str) : List Str := (ls.map wordsOf).flatten

theorem linesWords_nil : linesWords [] = [] := rfl

theorem linesWords_cons (l : Str) (ls : List Str) :
    linesWords (l :: ls) = wordsOf l ++ linesWords ls := by
  simp [linesWords]

theorem linesWords_append (a b : List Str) :
    linesWords (a ++ b) = linesWords a ++ linesWords b := by
  simp [linesWords]

theorem wordsOf_nil : wordsOf [] = [] := by decide

theorem wordsOf_append_space (a b : Str) :
    wordsOf (a ++ ' ' :: b) = wordsOf a ++ wordsOf b := by
  simp [wordsOf, splitOnSpace, splitOnChar_append]

theorem wordsOf_testLine (c w : Str) :
    wordsOf (testLine c w) = wordsOf c ++ wordsOf w := by
  by_cases h : c = []
  · simp [testLine, h, wordsOf_nil]
  · have : testLine c w = c ++ ' ' :: w := by simp [testLine, h]
    rw [this, wordsOf_append_space]

theorem splitOnSpace_of_no_space (w : Str) (h : ' ' ∉ w) :
    splitOnSpace w = [w] := splitOnChar_of_not_mem ' ' w h

theorem wordsOf_of_no_space (w : Str) (h : ' ' ∉ w) :
    wordsOf w = if w = [] then [] else [w] := by
  rw [wordsOf, splitOnSpace_of_no_space w h]
  by_cases hw : w = [] <;> simp [hw]

theorem linesWords_of_no_space (ls : List Str) (h : ∀ w ∈ ls, ' ' ∉ w) :
    linesWords ls = ls.filter (· ≠ []) := by
  induction ls with
  | nil => rfl
  | cons w ws ih =>
    rw [linesWords_cons, ih (fun v hv => h v (List.mem_cons_of_mem w hv)),
      wordsOf_of_no_space w (h w (List.mem_cons_self w ws))]
    by_cases hw : w = [] <;> simp [hw, List.filter_cons]

/-- The loop of `wrap_text` neither drops, duplicates nor reorders any
non-empty word: the words accumulated in closed lines plus the words of the
line under construction grow by exactly the words fed in. -/
theorem foldl_wrapStep_words (width : Str → Nat) (W : Int) (ws : List Str) :
    ∀ st : WrapState,
      linesWords (ws.foldl (wrapStep width W) st).lines
          ++ wordsOf (ws.foldl (wrapStep width W) st).current
        = linesWords st.lines ++ wordsOf st.current ++ linesWords ws := by
  induction ws with
  | nil => intro st; simp [linesWords_nil]
  | cons w ws ih =>
    intro st
    simp only [List.foldl_cons]
    rw [ih, linesWords_cons]
    unfold wrapStep
    by_cases h1 : (width (testLine st.current w) : Int) ≤ W
    · simp only [h1, if_pos]
      rw [wordsOf_testLine]
      simp [List.append_assoc]
    · simp only [h1, if_neg, not_false_iff]
      by_cases h2 : st.current = []
      · simp only [h2, ne_eq, not_true_eq_false, if_neg, not_false_iff]
        simp [h2, linesWords_append, linesWords_cons, wordsOf_nil, linesWords_nil]
      · simp only [ne_eq, h2, not_false_eq_true, if_pos]
        simp [linesWords_append, linesWords_cons, linesWords_nil, List.append_assoc]

/-- The lines produced by `wrap_text` carry exactly the non-empty words of
the input text, in order. -/
theorem wrapLines_words (width : Str → Nat) (W : Int) (t : Str) :
    linesWords (wrapLines width W t) = wordsOf t := by
  have hinv := foldl_wrapStep_words width W (splitOnSpace t) ⟨[], []⟩
  have hsplit : linesWords (splitOnSpace t) = wordsOf t := by
    rw [linesWords_of_no_space (splitOnSpace t) (mem_splitOnChar_not_mem ' ' t)]
    rfl
  unfold wrapLines
  by_cases hc : ((splitOnSpace t).foldl (wrapStep width W) ⟨[], []⟩).current = []
  · simp only [hc, ne_eq, not_true_eq_false, if_neg, not_false_iff]
    have := hinv
    rw [hc, wordsOf_nil, List.append_nil] at this
    rw [this]
    simpa [linesWords_nil, wordsOf_nil] using hsplit
  · simp only [ne_eq, hc, not_false_eq_true, if_pos]
    rw [linesWords_append, linesWords_cons, linesWords_nil, List.append_nil, hinv]
    simpa [linesWords_nil, wordsOf_nil] using hsplit

/-! ### Line width bound (claim C2) -/

theorem splitOnSpace_length_one_of_no_space (w : Str) (h : ' ' ∉ w) :
    (splitOnSpace w).length = 1 := by
  rw [splitOnSpace_of_no_space w h]
  rfl

/-- Invariant of the `wrap_text` loop: every closed line either fits the
budget or is a single space-free word, and the line under construction is
empty, fits, or is a single space-free word. -/
theorem foldl_wrapStep_fits (width : Str → Nat) (W : Int) :
    ∀ ws : List Str, (∀ w ∈ ws, ' ' ∉ w) →
    ∀ st : WrapState,
      (∀ l ∈ st.lines, (width l : Int) ≤ W ∨ (splitOnSpace l).length = 1) →
      (st.current = [] ∨ (width st.current : Int) ≤ W ∨ ' ' ∉ st.current) →
      (∀ l ∈ (ws.foldl (wrapStep width W) st).lines,
          (width l : Int) ≤ W ∨ (splitOnSpace l).length = 1) ∧
        ((ws.foldl (wrapStep width W) st).current = [] ∨
          (width (ws.foldl (wrapStep width W) st).current : Int) ≤ W ∨
          ' ' ∉ (ws.foldl (wrapStep width W) st).current) := by
  intro ws
  induction ws with
  | nil => intro _ st hl hc; exact ⟨hl, hc⟩
  | cons w ws ih =>
    intro hws st hl hc
    have hw : ' ' ∉ w := hws w (List.mem_cons_self w ws)
    have hws' : ∀ v ∈ ws, ' ' ∉ v := fun v hv => hws v (List.mem_cons_of_mem w hv)
    simp only [List.foldl_cons]
    unfold wrapStep
    by_cases h1 : (width (testLine st.current w) : Int) ≤ W
    · simp only [h1, if_pos]
      exact ih hws' _ hl (Or.inr (Or.inl h1))
    · simp only [h1, if_neg, not_false_iff]
      by_cases h2 : st.current = []
      · simp only [h2, ne_eq, not_true_eq_false, if_neg, not_false_iff]
        refine ih hws' _ ?_ (Or.inl rfl)
        intro l hlmem
        rcases List.mem_append.mp hlmem with hmem | hmem
        · exact hl l hmem
        · rw [List.mem_singleton.mp hmem]
          exact Or.inr (splitOnSpace_length_one_of_no_space w hw)
      · simp only [ne_eq, h2, not_false_eq_true, if_pos]
        refine ih hws' _ ?_ (Or.inr (Or.inr hw))
        intro l hlmem
        rcases List.mem_append.mp hlmem with hmem | hmem
        · exact hl l hmem
        · rw [List.mem_singleton.mp hmem]
          rcases hc with hc | hc | hc
          · exact absurd hc h2
          · exact Or.inl hc
          · exact Or.inr (splitOnSpace_length_one_of_no_space st.current hc)

/-- Every produced line fits the budget or is a single (unsplittable) word. -/
theorem wrapLines_fit (width : Str → Nat) (W : Int) (t : Str) :
    ∀ line ∈ wrapLines width W t,
      (width line : Int) ≤ W ∨ (splitOnSpace line).length = 1 := by
  have h := foldl_wrapStep_fits width W (splitOnSpace t)
    (mem_splitOnChar_not_mem ' ' t) ⟨[], []⟩ (by simp) (Or.inl rfl)
  intro line hline
  unfold wrapLines at hline
  by_cases hc : ((splitOnSpace t).foldl (wrapStep width W) ⟨[], []⟩).current = []
  · simp only [hc, ne_eq, not_true_eq_false, if_neg, not_false_iff] at hline
    exact h.1 line hline
  · simp only [ne_eq, hc, not_false_eq_true, if_pos] at hline
    rcases List.mem_append.mp hline with hmem | hmem
    · exact h.1 line hmem
    · rw [List.mem_singleton.mp hmem]
      rcases h.2 with h2 | h2 | h2
      · exact absurd h2 hc
      · exact Or.inl h2
      · exact Or.inr (splitOnSpace_length_one_of_no_space _ h2)

/-! ### The frozen claims about `wrap_text` -/

/-- **C1.** For every text `T` and every max-width budget `W` at least the
measured width of the widest single word of `T`, `wrap_text(T, font, W, draw)`
produces lines whose words, read in line order, are exactly the words of `T`
in their original order: no word is dropped, duplicated, split mid-word, or
reordered.  (The property in fact holds for every budget `W`; the stated
hypothesis of the claim is kept.) -/
theorem wrap_text_preserves_word_sequence (width : Str → Nat) (W : Int) (t : Str)
    (_h : ∀ w ∈ wordsOf t, (width w : Int) ≤ W) :
    linesWords (wrapLines width W t) = wordsOf t :=
  wrapLines_words width W t

theorem wrap_text_preserves_word_sequence_witness :
    (∀ w ∈ wordsOf ['a', 'b', ' ', 'c'], ((List.length w : Nat) : Int) ≤ 5) ∧
      linesWords (wrapLines List.length 5 ['a', 'b', ' ', 'c'])
        = wordsOf ['a', 'b', ' ', 'c'] :=
  ⟨by decide,
    wrap_text_preserves_word_sequence List.length 5 ['a', 'b', ' ', 'c'] (by decide)⟩

/-- **C2.** For every text `T` and every max-width budget `W`, every line
returned by `wrap_text(T, font, W, draw)` has measured width at most `W`,
except a line consisting of exactly one word (in the sense of Python
`line.split(' ')`), which may exceed `W` and is emitted alone and unmodified
rather than raising an error or splitting characters. -/
theorem wrap_text_line_width_bound (width : Str → Nat) (W : Int) (t : Str)
    (line : Str) (h : line ∈ wrapLines width W t) :
    (width line : Int) ≤ W ∨ (splitOnSpace line).length = 1 :=
  wrapLines_fit width W t line h

theorem wrap_text_line_width_bound_witness :
    (['a', 'b', 'c', 'd'] ∈
        wrapLines List.length 3 ['a', 'b', 'c', 'd', ' ', 'e', 'f']) ∧
      (((List.length ['a', 'b', 'c', 'd'] : Nat) : Int) ≤ 3 ∨
        (splitOnSpace ['a', 'b', 'c', 'd']).length = 1) :=
  ⟨by decide,
    wrap_text_line_width_bound List.length 3 ['a', 'b', 'c', 'd', ' ', 'e', 'f']
      ['a', 'b', 'c', 'd'] (by decide)⟩

/-- **C3.** `wrap_text` is a total function for every input string and every
budget (it is defined by structural recursion and a fold, and raises
nothing); in particular on the empty string it returns the empty string,
and the line set it builds is empty or a single empty line. -/
theorem wrap_text_empty_input (width : Str → Nat) (W : Int) :
    wrap_text width W [] = [] ∧
      (wrapLines width W [] = [] ∨ wrapLines width W [] = [[]]) := by
  have hsplit : splitOnSpace ([] : Str) = [[]] := rfl
  by_cases h : ((width [] : Nat) : Int) ≤ W
  · constructor
    · unfold wrap_text wrapLines
      rw [hsplit]
      simp [wrapStep, testLine, h, joinWith]
    · left
      unfold wrapLines
      rw [hsplit]
      simp [wrapStep, testLine, h]
  · constructor
    · unfold wrap_text wrapLines
      rw [hsplit]
      simp [wrapStep, testLine, h, joinWith]
    · right
      unfold wrapLines
      rw [hsplit]
      simp [wrapStep, testLine, h]

/-! ### An image model for `add_text_overlay`

PIL images are modelled as a size, a mode and a total pixel map; glyph
rasterisation and font loading are external to the repository and are
abstracted as an environment (`PILEnv`).  Channel values are intended in
`0..255`. -/

/-- One RGBA pixel. -/
structure Pixel where
  r : Nat
  g : Nat
  b : Nat
  a : Nat
deriving DecidableEq

/-- The two PIL modes that occur in `add_text_overlay`. -/
inductive PixMode
  | RGB
  | RGBA
deriving DecidableEq

/-- A raster image: size, mode, pixels. -/
structure Img where
  width : Nat
  height : Nat
  mode : PixMode
  px : Nat → Nat → Pixel

/-- `image.copy()`: a new image object with the same contents.  In this
value model the contents are the value itself. -/
def Img.copy (img : Img) : Img := img

/-- `image.convert('RGBA')`: an RGB image gains an opaque alpha channel,
an RGBA image is unchanged. -/
def Img.convertRGBA (img : Img) : Img :=
  { img with
    mode := PixMode.RGBA
    px := fun x y =>
      if img.mode = PixMode.RGBA then img.px x y
      else { img.px x y with a := 255 } }

/-- `image.convert('RGB')`: drop the alpha channel; the stored alpha of the
result is the opaque 255. -/
def Img.convertRGB (img : Img) : Img :=
  { img with
    mode := PixMode.RGB
    px := fun x y => { img.px x y with a := 255 } }

/-- `Image.new('RGBA', (w, h), c)`: a uniform RGBA image. -/
def newRGBA (w h : Nat) (c : Pixel) : Img :=
  { width := w, height := h, mode := PixMode.RGBA, px := fun _ _ => c }

/-- Straight (non-premultiplied) source-over compositing of one pixel,
with the integer arithmetic in 1/255 fixed point; models what PIL's
`Image.alpha_composite` computes per pixel. -/
def compositePixel (base ov : Pixel) : Pixel :=
  let a255 := ov.a * 255 + base.a * (255 - ov.a)
  if a255 = 0 then ⟨0, 0, 0, 0⟩
  else
    ⟨(ov.r * ov.a * 255 + base.r * base.a * (255 - ov.a)) / a255,
      (ov.g * ov.a * 255 + base.g * base.a * (255 - ov.a)) / a255,
      (ov.b * ov.a * 255 + base.b * base.a * (255 - ov.a)) / a255,
      a255 / 255⟩

/-- `Image.alpha_composite(base, overlay)`: pixelwise source-over; the
result is RGBA with the base image's size. -/
def alphaComposite (base ov : Img) : Img :=
  { width := base.width, height := base.height, mode := PixMode.RGBA,
    px := fun x y => compositePixel (base.px x y) (ov.px x y) }

/-- A font, reduced to the capability the engine uses through
`draw.textbbox`: measuring the pixel width of a string. -/
structure Font where
  measure : Str → Nat

/-- The arguments of one `draw.text(...)` invocation. -/
structure TextCall where
  x : Int
  y : Int
  text : Str
  font : Font
  fill : Pixel
  strokeWidth : Nat
  strokeFill : Pixel

/-- Glyph rasterisation, external to the repository: the coverage of one
`draw.text` call at one pixel (`none` where the call leaves the canvas
alone). -/
def Raster : Type := TextCall → Nat → Nat → Option Pixel

/-- `draw.text(...)` on the image a draw object is bound to: pixels covered
by the rasterised call are replaced, all others are kept. -/
def drawText (raster : Raster) (img : Img) (call : TextCall) : Img :=
  { img with
    px := fun x y =>
      match raster call x y with
      | some p => p
      | none => img.px x y }

/-- The PIL facilities `add_text_overlay` relies on: truetype font loading
(`none` models `ImageFont.truetype` raising), the built-in default font of
`ImageFont.load_default()`, and glyph rasterisation. -/
structure PILEnv where
  loadTruetype : String → Nat → Option Font
  defaultFont : Font
  raster : Raster

/-- Per-slide content consumed by the overlay engine. -/
structure Slide where
  title : Str
  subtitle : Str

/-- PIL colour `"white"`. -/
def whitePixel : Pixel := ⟨255, 255, 255, 255⟩

/-- PIL colour `"black"`. -/
def blackPixel : Pixel := ⟨0, 0, 0, 255⟩

/-- The font sizes and margins chosen per format
(generate_listicle.py:344-356). -/
structure OverlayParams where
  titleSize : Nat
  subtitleSize : Nat
  numberSize : Nat
  margin : Nat
  textMargin : Nat

/-- `if format_type == 'portrait': ... else: ...`
(generate_listicle.py:345-356). -/
def overlayParams (format_type : String) : OverlayParams :=
  if format_type = "portrait" then ⟨75, 45, 100, 60, 100⟩
  else ⟨70, 42, 90, 80, 150⟩

/-- The font file the engine prefers (generate_listicle.py:360-362). -/
def helveticaPath : String := "/System/Library/Fonts/Helvetica.ttc"

/-- The `try/except` font loading (generate_listicle.py:358-366): three
truetype loads; if any of them fails, all three roles fall back to the
built-in default font. -/
def selectFonts (env : PILEnv) (titleSize subtitleSize numberSize : Nat) :
    Font × Font × Font :=
  match env.loadTruetype helveticaPath titleSize,
      env.loadTruetype helveticaPath subtitleSize,
      env.loadTruetype helveticaPath numberSize with
  | some tf, some sf, some nf => (tf, sf, nf)
  | _, _, _ => (env.defaultFont, env.defaultFont, env.defaultFont)

/-- The (title, subtitle, number) fonts used for a format. -/
def overlayFonts (env : PILEnv) (format_type : String) : Font × Font × Font :=
  let p := overlayParams format_type
  selectFonts env p.titleSize p.subtitleSize p.numberSize

/-- `max_title_width = width - (text_margin * 2)` — also the subtitle
budget (generate_listicle.py:379,399). -/
def maxTextWidth (width : Nat) (format_type : String) : Int :=
  (width : Int) - ((overlayParams format_type).textMargin : Int) * 2

/-- `title_lines = wrapped_title.split('\n')` (generate_listicle.py:380,383). -/
def titleLines (env : PILEnv) (width : Nat) (slide : Slide) (format_type : String) :
    List Str :=
  splitOnChar '\n'
    (wrap_text (overlayFonts env format_type).1.measure
      (maxTextWidth width format_type) slide.title)

/-- `total_title_height = len(title_lines) * (title_size + 10)`
(generate_listicle.py:384-385). -/
def totalTitleHeight (env : PILEnv) (width : Nat) (slide : Slide)
    (format_type : String) : Int :=
  ((titleLines env width slide format_type).length : Int) *
    (((overlayParams format_type).titleSize : Int) + 10)

/-- `title_start_y = (height // 2) - (total_title_height // 2) - 30`
(generate_listicle.py:386); Python `//` is floor division, `Int.fdiv`. -/
def titleStartY (env : PILEnv) (width height : Nat) (slide : Slide)
    (format_type : String) : Int :=
  Int.fdiv (height : Int) 2 - Int.fdiv (totalTitleHeight env width slide format_type) 2 - 30

/-- The per-line centred draw calls of a text block
(generate_listicle.py:389-396 and 408-415): line `i` is drawn at
`x = (width - measured) // 2`, `y = startY + i * lineHeight`. -/
def centeredCalls (font : Font) (canvasWidth : Nat) (ls : List Str)
    (startY lineHeight : Int) (fill : Pixel) (strokeW : Nat) (strokeFill : Pixel) :
    List TextCall :=
  ls.enum.map fun p =>
    { x := Int.fdiv ((canvasWidth : Int) - (font.measure p.2 : Int)) 2
      y := startY + (p.1 : Int) * lineHeight
      text := p.2
      font := font
      fill := fill
      strokeWidth := strokeW
      strokeFill := strokeFill }

/-- The title block draw calls: white fill, stroke width 4, black outline
(generate_listicle.py:389-396). -/
def titleCalls (env : PILEnv) (width height : Nat) (slide : Slide)
    (format_type : String) : List TextCall :=
  centeredCalls (overlayFonts env format_type).1 width
    (titleLines env width slide format_type)
    (titleStartY env width height slide format_type)
    (((overlayParams format_type).titleSize : Int) + 10)
    whitePixel 4 blackPixel

/-- `subtitle_lines = wrapped_subtitle.split('\n')`
(generate_listicle.py:400,403), wrapped against the same budget as the
title. -/
def subtitleLines (env : PILEnv) (width : Nat) (slide : Slide)
    (format_type : String) : List Str :=
  splitOnChar '\n'
    (wrap_text (overlayFonts env format_type).2.1.measure
      (maxTextWidth width format_type) slide.subtitle)

/-- `subtitle_start_y = title_start_y + total_title_height + 50`
(generate_listicle.py:405). -/
def subtitleStartY (env : PILEnv) (width height : Nat) (slide : Slide)
    (format_type : String) : Int :=
  titleStartY env width height slide format_type +
    totalTitleHeight env width slide format_type + 50

/-- The subtitle block draw calls: line spacing `subtitle_size + 8`, white
fill, stroke width 2, black outline (generate_listicle.py:404-415). -/
def subtitleCalls (env : PILEnv) (width height : Nat) (slide : Slide)
    (format_type : String) : List TextCall :=
  centeredCalls (overlayFonts env format_type).2.1 width
    (subtitleLines env width slide format_type)
    (subtitleStartY env width height slide format_type)
    (((overlayParams format_type).subtitleSize : Int) + 8)
    whitePixel 2 blackPixel

/-- Python `str(n)`. -/
def natToStr (n : Nat) : Str := (Nat.repr n).data

/-- The slide-number draw call: `draw.text((margin, margin), str(n), ...)`
with stroke width 3 (generate_listicle.py:374-376). -/
def numberCall (env : PILEnv) (slide_number : Nat) (format_type : String) :
    TextCall :=
  { x := ((overlayParams format_type).margin : Int)
    y := ((overlayParams format_type).margin : Int)
    text := natToStr slide_number
    font := (overlayFonts env format_type).2.2
    fill := whitePixel
    strokeWidth := 3
    strokeFill := blackPixel }

/-- All `draw.text` calls of one `add_text_overlay` invocation, in source
order: slide number, then title lines, then subtitle lines
(generate_listicle.py:374-415). -/
def overlayCalls (env : PILEnv) (width height : Nat) (slide : Slide)
    (slide_number : Nat) (format_type : String) : List TextCall :=
  numberCall env slide_number format_type ::
    (titleCalls env width height slide format_type ++
      subtitleCalls env width height slide format_type)

/-- `Image.new('RGBA', image.size, (0, 0, 0, 100))`
(generate_listicle.py:369): the uniform semi-transparent darkening layer. -/
def overlayLayer (w h : Nat) : Img := newRGBA w h ⟨0, 0, 0, 100⟩

/-- `add_text_overlay(image, slide_data, slide_number, format_type)`
(generate_listicle.py:336-417): copy the input, composite the darkening
layer over the whole canvas, draw number, title and subtitle, and convert
the result to RGB. -/
def add_text_overlay (env : PILEnv) (image : Img) (slide : Slide)
    (slide_number : Nat) (format_type : String) : Img :=
  let img0 := image.copy
  let base := alphaComposite img0.convertRGBA (overlayLayer image.width image.height)
  let drawn :=
    (overlayCalls env img0.width img0.height slide slide_number format_type).foldl
      (drawText env.raster) base
  drawn.convertRGB

/-- Images with the same size, mode and pixels are the same image value. -/
theorem Img.ext_of_fields (a b : Img) (hw : a.width = b.width)
    (hh : a.height = b.height) (hm : a.mode = b.mode)
    (hpx : ∀ x y, a.px x y = b.px x y) : a = b := by
  cases a with
  | mk aw ah am apx =>
    cases b with
    | mk bw bh bm bpx =>
      simp only at hw hh hm hpx
      subst hw; subst hh; subst hm
      have : apx = bpx := funext fun x => funext fun y => hpx x y
      rw [this]

/-- `add_text_overlay` only reaches the PIL environment through the chosen
fonts and the rasteriser: environments agreeing on those render alike. -/
theorem add_text_overlay_congr_env (env env2 : PILEnv) (image : Img)
    (slide : Slide) (n : Nat) (fmt : String)
    (hf : overlayFonts env fmt = overlayFonts env2 fmt)
    (hr : env.raster = env2.raster) :
    add_text_overlay env image slide n fmt
      = add_text_overlay env2 image slide n fmt := by
  have h1 : ∀ w s, titleLines env w s fmt = titleLines env2 w s fmt := by
    intro w s; unfold titleLines; rw [hf]
  have h2 : ∀ w s, totalTitleHeight env w s fmt = totalTitleHeight env2 w s fmt := by
    intro w s; unfold totalTitleHeight; rw [h1]
  have h3 : ∀ w h s, titleStartY env w h s fmt = titleStartY env2 w h s fmt := by
    intro w h s; unfold titleStartY; rw [h2]
  have h4 : ∀ w s, subtitleLines env w s fmt = subtitleLines env2 w s fmt := by
    intro w s; unfold subtitleLines; rw [hf]
  have h5 : ∀ w h s, subtitleStartY env w h s fmt = subtitleStartY env2 w h s fmt := by
    intro w h s; unfold subtitleStartY; rw [h3, h2]
  unfold add_text_overlay overlayCalls titleCalls subtitleCalls numberCall
  rw [hf, hr]
  simp only [h1, h3, h4, h5]

/-! ### The frozen claims about `add_text_overlay` -/

/-- **C4.** For every canvas of width `W` and height `H`, every slide and
either format, the title block of `add_text_overlay` has `n ≥ 1` wrapped
lines, total height exactly `n * (titleSize + 10)`, vertical start exactly
`H/2 - (n * (titleSize + 10))/2 - 30` (Python floor division), and line `i`
is drawn at `x = (W - measuredLineWidth)/2`, `y = startY + i*(titleSize+10)`,
with white fill, black outline and stroke width 4, as part of the overlay's
draw calls. -/
theorem add_text_overlay_title_geometry (env : PILEnv) (W H : Nat)
    (slide : Slide) (slide_number : Nat) (fmt : String) :
    1 ≤ (titleLines env W slide fmt).length ∧
    totalTitleHeight env W slide fmt
      = ((titleLines env W slide fmt).length : Int) *
          (((overlayParams fmt).titleSize : Int) + 10) ∧
    titleStartY env W H slide fmt
      = Int.fdiv (H : Int) 2 - Int.fdiv (totalTitleHeight env W slide fmt) 2 - 30 ∧
    titleCalls env W H slide fmt
      = (titleLines env W slide fmt).enum.map (fun p =>
          { x := Int.fdiv ((W : Int) - ((overlayFonts env fmt).1.measure p.2 : Int)) 2
            y := titleStartY env W H slide fmt +
                  (p.1 : Int) * (((overlayParams fmt).titleSize : Int) + 10)
            text := p.2
            font := (overlayFonts env fmt).1
            fill := whitePixel
            strokeWidth := 4
            strokeFill := blackPixel }) ∧
    overlayCalls env W H slide slide_number fmt
      = numberCall env slide_number fmt ::
          (titleCalls env W H slide fmt ++ subtitleCalls env W H slide fmt) := by
  refine ⟨?_, rfl, rfl, rfl, rfl⟩
  exact List.length_pos.mpr (splitOnChar_ne_nil '\n' _)

/-- **C5.** For every canvas, slide and format, the subtitle block of
`add_text_overlay` starts exactly at `titleStartY + titleTotalHeight + 50`,
is wrapped against the same max-width budget as the title
(`maxTextWidth`), spaces its lines by `subtitleSize + 8` with stroke
width 2, and the title block's start plus its total height never exceeds
the subtitle block's start (the blocks do not overlap). -/
theorem add_text_overlay_subtitle_geometry (env : PILEnv) (W H : Nat)
    (slide : Slide) (fmt : String) :
    subtitleStartY env W H slide fmt
      = titleStartY env W H slide fmt + totalTitleHeight env W slide fmt + 50 ∧
    subtitleLines env W slide fmt
      = splitOnChar '\n'
          (wrap_text (overlayFonts env fmt).2.1.measure (maxTextWidth W fmt)
            slide.subtitle) ∧
    subtitleCalls env W H slide fmt
      = (subtitleLines env W slide fmt).enum.map (fun p =>
          { x := Int.fdiv ((W : Int) - ((overlayFonts env fmt).2.1.measure p.2 : Int)) 2
            y := subtitleStartY env W H slide fmt +
                  (p.1 : Int) * (((overlayParams fmt).subtitleSize : Int) + 8)
            text := p.2
            font := (overlayFonts env fmt).2.1
            fill := whitePixel
            strokeWidth := 2
            strokeFill := blackPixel }) ∧
    titleStartY env W H slide fmt + totalTitleHeight env W slide fmt
      ≤ subtitleStartY env W H slide fmt := by
  refine ⟨rfl, rfl, rfl, ?_⟩
  unfold subtitleStartY
  omega

/-- **C6.** For every input canvas and slide, `add_text_overlay` composites
a uniform black layer of alpha 100/255 over the entire canvas before any
text call (number, title, subtitle) is drawn, and the returned canvas is
opaque RGB (alpha 255 everywhere) regardless of the intermediate alpha
compositing. -/
theorem add_text_overlay_darkening_and_rgb (env : PILEnv) (image : Img)
    (slide : Slide) (n : Nat) (fmt : String) :
    (∀ x y, (overlayLayer image.width image.height).px x y = ⟨0, 0, 0, 100⟩) ∧
    add_text_overlay env image slide n fmt
      = Img.convertRGB
          ((overlayCalls env image.copy.width image.copy.height slide n fmt).foldl
            (drawText env.raster)
            (alphaComposite image.copy.convertRGBA
              (overlayLayer image.width image.height))) ∧
    (add_text_overlay env image slide n fmt).mode = PixMode.RGB ∧
    (∀ x y, ((add_text_overlay env image slide n fmt).px x y).a = 255) :=
  ⟨fun _ _ => rfl, rfl, rfl, fun _ _ => rfl⟩

/-- **C7.** Two invocations of `add_text_overlay` with identical inputs —
the same canvas size, mode and pixels, the same slide, number and format,
and the same font/raster environment — produce the same output canvas:
rendering is deterministic. -/
theorem add_text_overlay_deterministic (env : PILEnv) (img1 img2 : Img)
    (slide : Slide) (n : Nat) (fmt : String)
    (hw : img1.width = img2.width) (hh : img1.height = img2.height)
    (hm : img1.mode = img2.mode) (hpx : ∀ x y, img1.px x y = img2.px x y) :
    add_text_overlay env img1 slide n fmt = add_text_overlay env img2 slide n fmt := by
  rw [Img.ext_of_fields img1 img2 hw hh hm hpx]

theorem add_text_overlay_deterministic_witness :
    add_text_overlay ⟨fun _ _ => none, ⟨fun _ => 0⟩, fun _ _ _ => none⟩
        ⟨1, 1, PixMode.RGB, fun _ _ => ⟨0, 0, 0, 255⟩⟩ ⟨[], []⟩ 1 "landscape"
      = add_text_overlay ⟨fun _ _ => none, ⟨fun _ => 0⟩, fun _ _ _ => none⟩
        ⟨1, 1, PixMode.RGB, fun _ _ => ⟨0, 0, 0, 255⟩⟩ ⟨[], []⟩ 1 "landscape" :=
  add_text_overlay_deterministic ⟨fun _ _ => none, ⟨fun _ => 0⟩, fun _ _ _ => none⟩
    ⟨1, 1, PixMode.RGB, fun _ _ => ⟨0, 0, 0, 255⟩⟩
    ⟨1, 1, PixMode.RGB, fun _ _ => ⟨0, 0, 0, 255⟩⟩ ⟨[], []⟩ 1 "landscape"
    rfl rfl rfl (fun _ _ => rfl)

/-- **C8.** If loading the preferred truetype font fails for any of the
three sizes, `add_text_overlay` uses the built-in default font for all
three text roles and renders exactly as it would with no truetype font
available at all — font unavailability is never a fatal error (the
function is total). -/
theorem add_text_overlay_font_fallback (env : PILEnv) (image : Img)
    (slide : Slide) (n : Nat) (fmt : String)
    (h : env.loadTruetype helveticaPath (overlayParams fmt).titleSize = none ∨
        env.loadTruetype helveticaPath (overlayParams fmt).subtitleSize = none ∨
        env.loadTruetype helveticaPath (overlayParams fmt).numberSize = none) :
    overlayFonts env fmt = (env.defaultFont, env.defaultFont, env.defaultFont) ∧
    add_text_overlay env image slide n fmt
      = add_text_overlay { env with loadTruetype := fun _ _ => none }
          image slide n fmt := by
  have hf : overlayFonts env fmt = (env.defaultFont, env.defaultFont, env.defaultFont) := by
    unfold overlayFonts selectFonts
    rcases h with h | h | h <;>
      cases h1 : env.loadTruetype helveticaPath (overlayParams fmt).titleSize <;>
      cases h2 : env.loadTruetype helveticaPath (overlayParams fmt).subtitleSize <;>
      cases h3 : env.loadTruetype helveticaPath (overlayParams fmt).numberSize <;>
      simp_all
  refine ⟨hf, add_text_overlay_congr_env env _ image slide n fmt ?_ rfl⟩
  rw [hf]
  rfl

theorem add_text_overlay_font_fallback_witness :
    ((⟨fun _ _ => none, ⟨fun _ => 0⟩, fun _ _ _ => none⟩ : PILEnv).loadTruetype
        helveticaPath (overlayParams "landscape").titleSize = none ∨
      (⟨fun _ _ => none, ⟨fun _ => 0⟩, fun _ _ _ => none⟩ : PILEnv).loadTruetype
        helveticaPath (overlayParams "landscape").subtitleSize = none ∨
      (⟨fun _ _ => none, ⟨fun _ => 0⟩, fun _ _ _ => none⟩ : PILEnv).loadTruetype
        helveticaPath (overlayParams "landscape").numberSize = none) ∧
    (overlayFonts ⟨fun _ _ => none, ⟨fun _ => 0⟩, fun _ _ _ => none⟩ "landscape"
        = (Font.mk fun _ => 0, Font.mk fun _ => 0, Font.mk fun _ => 0) ∧
      add_text_overlay ⟨fun _ _ => none, ⟨fun _ => 0⟩, fun _ _ _ => none⟩
          ⟨1, 1, PixMode.RGB, fun _ _ => ⟨0, 0, 0, 255⟩⟩ ⟨[], []⟩ 1 "landscape"
        = add_text_overlay
            { (⟨fun _ _ => none, ⟨fun _ => 0⟩, fun _ _ _ => none⟩ : PILEnv) with
              loadTruetype := fun _ _ => none }
            ⟨1, 1, PixMode.RGB, fun _ _ => ⟨0, 0, 0, 255⟩⟩ ⟨[], []⟩ 1 "landscape") :=
  ⟨Or.inl rfl,
    add_text_overlay_font_fallback ⟨fun _ _ => none, ⟨fun _ => 0⟩, fun _ _ _ => none⟩
      ⟨1, 1, PixMode.RGB, fun _ _ => ⟨0, 0, 0, 255⟩⟩ ⟨[], []⟩ 1 "landscape" (Or.inl rfl)⟩

/-- `add_text_overlay` with the caller's image object tracked through the
call by explicit state passing: the input object is read twice
(`image.copy()` at line 339 and `image.size` at line 369) and never
written — every `draw.text` targets the copy or the composited surface.
The second component is the caller's object after the call. -/
def add_text_overlay_tracked (env : PILEnv) (image : Img) (slide : Slide)
    (slide_number : Nat) (format_type : String) : Img × Img :=
  let img0 := image.copy
  let base := alphaComposite img0.convertRGBA (overlayLayer image.width image.height)
  let drawn :=
    (overlayCalls env img0.width img0.height slide slide_number format_type).foldl
      (drawText env.raster) base
  (drawn.convertRGB, image)

/-- **C10.** `add_text_overlay` leaves the caller's input canvas unchanged:
with the imperative call modelled by explicit state passing, the caller's
image object after the call is exactly the input, and the returned canvas
is the one computed from the copy. -/
theorem add_text_overlay_input_unchanged (env : PILEnv) (image : Img)
    (slide : Slide) (n : Nat) (fmt : String) :
    (add_text_overlay_tracked env image slide n fmt).2 = image ∧
    (add_text_overlay_tracked env image slide n fmt).1
      = add_text_overlay env image slide n fmt :=
  ⟨rfl, rfl⟩

/-! ### The caller `generate_listicle_images` (claim C9)

The pipeline around the engine performs I/O (printing, file saving,
cleanup, network and model calls); those collaborators are passed in as
stage functions, so that the validation logic and the per-slide data flow
can be stated over all of them. -/

/-- One entry of the `FORMATS` table (generate_listicle.py:14-25). -/
structure FormatConfig where
  width : Nat
  height : Nat
  name : String

/-- `FORMATS` (generate_listicle.py:14-25), in declaration order. -/
def FORMATS : List (String × FormatConfig) :=
  [("landscape", ⟨1920, 1080, "YouTube/Landscape"⟩),
    ("portrait", ⟨1080, 1920, "TikTok/Portrait"⟩)]

/-- `BACKGROUND_TYPES` (generate_listicle.py:28-32), in declaration order. -/
def BACKGROUND_TYPES : List (String × String) :=
  [("color", "Solid color gradients"),
    ("ai", "AI-generated images"),
    ("stock", "Stock images from Unsplash")]

/-- The keys of `FORMATS`. -/
def formatKeys : List String := FORMATS.map Prod.fst

/-- The keys of `BACKGROUND_TYPES`. -/
def backgroundKeys : List String := BACKGROUND_TYPES.map Prod.fst

/-- The `ValueError` messages of the two validation checks
(generate_listicle.py:38,41). -/
def formatErrorMsg : String := "Format must be one of: ['landscape', 'portrait']"

def backgroundErrorMsg : String :=
  "Background type must be one of: ['color', 'ai', 'stock']"

/-- A raised Python exception, as a value. -/
inductive PyError
  | valueError (msg : String)
deriving DecidableEq

/-- The three background factories (`create_color_background`,
`create_ai_background`, `create_stock_background`): they draw on gradients,
a diffusion model and the network, so they are external stage functions
here.  `color` takes width, height and the slide index; `ai` takes width,
height and the slide; `stock` additionally takes the topic. -/
structure BackgroundProviders where
  color : Nat → Nat → Nat → Img
  ai : Nat → Nat → Slide → Img
  stock : Nat → Nat → Slide → String → Img

/-- `generate_listicle_images(topic, format_type, background_type,
num_slides)` (generate_listicle.py:34-90), with rendering environment,
background factories and the content stage (`generate_content_for_topic`)
passed in, and the I/O-only steps (printing, `os.makedirs`, saving files,
`cleanup_old_images`) omitted; it returns the overlaid slide images in
order.  The two `ValueError` checks come first, format before background
(lines 37-41), before any content or background is produced. -/
def generate_listicle_images (env : PILEnv) (bg : BackgroundProviders)
    (contentGen : String → Nat → List Slide)
    (topic format_type background_type : String) (num_slides : Nat) :
    Except PyError (List Img) :=
  if format_type ∉ formatKeys then
    Except.error (PyError.valueError formatErrorMsg)
  else if background_type ∉ backgroundKeys then
    Except.error (PyError.valueError backgroundErrorMsg)
  else
    match FORMATS.lookup format_type with
    | none => Except.error (PyError.valueError formatErrorMsg)
    | some cfg =>
      let slides := contentGen topic num_slides
      Except.ok (slides.enum.map fun p =>
        let background :=
          if background_type = "color" then bg.color cfg.width cfg.height p.1
          else if background_type = "ai" then bg.ai cfg.width cfg.height p.2
          else if background_type = "stock" then
            bg.stock cfg.width cfg.height p.2 topic
          else bg.color cfg.width cfg.height p.1
        add_text_overlay env background p.2 (p.1 + 1) format_type)

/-- **C9.** For every format key other than `landscape` and `portrait`,
`generate_listicle_images` raises `ValueError` — whatever the content
stage, the background factories and the rendering environment are, so no
slide content is generated and no canvas reaches the overlay engine. -/
theorem generate_listicle_images_invalid_format (format_type : String)
    (h : format_type ∉ formatKeys) :
    ∀ (env : PILEnv) (bg : BackgroundProviders)
      (contentGen : String → Nat → List Slide)
      (topic background_type : String) (num_slides : Nat),
      generate_listicle_images env bg contentGen topic format_type
          background_type num_slides
        = Except.error (PyError.valueError formatErrorMsg) := by
  intro env bg contentGen topic background_type num_slides
  unfold generate_listicle_images
  simp [h]

theorem generate_listicle_images_invalid_format_witness :
    ("square" ∉ formatKeys) ∧
      generate_listicle_images
          ⟨fun _ _ => none, ⟨fun _ => 0⟩, fun _ _ _ => none⟩
          ⟨fun _ _ _ => ⟨1, 1, PixMode.RGB, fun _ _ => ⟨0, 0, 0, 255⟩⟩,
            fun _ _ _ => ⟨1, 1, PixMode.RGB, fun _ _ => ⟨0, 0, 0, 255⟩⟩,
            fun _ _ _ _ => ⟨1, 1, PixMode.RGB, fun _ _ => ⟨0, 0, 0, 255⟩⟩⟩
          (fun _ _ => []) "topic" "square" "color" 5
        = Except.error (PyError.valueError formatErrorMsg) :=
  ⟨by decide,
    generate_listicle_images_invalid_format "square" (by decide)
      ⟨fun _ _ => none, ⟨fun _ => 0⟩, fun _ _ _ => none⟩
      ⟨fun _ _ _ => ⟨1, 1, PixMode.RGB, fun _ _ => ⟨0, 0, 0, 255⟩⟩,
        fun _ _ _ => ⟨1, 1, PixMode.RGB, fun _ _ => ⟨0, 0, 0, 255⟩⟩,
        fun _ _ _ _ => ⟨1, 1, PixMode.RGB, fun _ _ => ⟨0, 0, 0, 255⟩⟩⟩
      (fun _ _ => []) "topic" "color" 5⟩
